import Mathlib

/-!
Shallow embedding of the `time_it` attribute crate (src/lib.rs).

The crate exposes one attribute: it parses the annotated item as a
function (`syn::ItemFn`), parses the attribute argument position as a
`LogLevel` (a five-value enumeration with a case-insensitive string
parser generated by strum, default `Debug`), and re-emits the function
with the same attributes, visibility and signature but with a body that
times the original body and emits one tracing statement.

Modelling choices:
  - attribute-argument token streams are lists of `ArgToken`
    (string literals, commas, and anything else);
  - `Punctuated<LitStr, Token![,]>::parse_terminated` becomes
    `parseTerminated`;
  - strum's derived `FromStr` with `ascii_case_insensitive` becomes
    `LogLevel.fromStr`, comparing against the variant serializations
    with byte-wise ASCII lowercasing, in declaration order;
  - `syn::Error` becomes `SynError` carrying the message string (source
    spans are compile-time positions and are not modelled);
  - the pieces of the input `ItemFn` that the code never inspects
    (attributes, visibility, the signature fields other than `ident`
    and `asyncness`, the body statements) are carried as opaque strings
    or string lists, preserved verbatim exactly as `quote!`
    interpolation does;
  - the emitted body is a list of `Stmt`, one per statement produced by
    the `quote!` templates in `time_it`.
-/

/-- One token in the attribute argument position. -/
inductive ArgToken where
  | strLit (s : String)
  | comma
  | other (tok : String)
deriving DecidableEq, Repr

/-- Embedding of `syn::Error`: the diagnostic message (the span is not modelled). -/
structure SynError where
  msg : String
deriving DecidableEq, Repr

/-- The five log levels, in the declaration order of `enum LogLevel` in src/lib.rs. -/
inductive LogLevel where
  | Trace
  | Debug
  | Info
  | Warn
  | Error
deriving DecidableEq, Repr

/-- Embedding of `#[derive(Default)]` with `#[default]` on `Debug`. -/
def LogLevel.default : LogLevel := .Debug

/-- The strum serialization of each variant (the variant name itself). -/
def LogLevel.variantName : LogLevel → String
  | .Trace => "Trace"
  | .Debug => "Debug"
  | .Info => "Info"
  | .Warn => "Warn"
  | .Error => "Error"

/-- ASCII lowercasing of one character, as `u8::to_ascii_lowercase` does. -/
def asciiToLower (c : Char) : Char :=
  if 'A' ≤ c ∧ c ≤ 'Z' then Char.ofNat (c.toNat + 32) else c

/-- Embedding of `str::eq_ignore_ascii_case`. -/
def eqIgnoreAsciiCase (a b : String) : Bool :=
  a.data.map asciiToLower == b.data.map asciiToLower

/-- Embedding of the strum-derived `FromStr` for `LogLevel` under
`#[strum(ascii_case_insensitive)]`: the input is compared
case-insensitively against each variant serialization in declaration
order; no match is the `VariantNotFound` error (here `none`). -/
def LogLevel.fromStr (s : String) : Option LogLevel :=
  if eqIgnoreAsciiCase s "Trace" then some .Trace
  else if eqIgnoreAsciiCase s "Debug" then some .Debug
  else if eqIgnoreAsciiCase s "Info" then some .Info
  else if eqIgnoreAsciiCase s "Warn" then some .Warn
  else if eqIgnoreAsciiCase s "Error" then some .Error
  else none

/-- Embedding of `Punctuated::<LitStr, Token![,]>::parse_terminated`:
string literals separated by commas, optional trailing comma, possibly
empty; any token that is not a string literal where one is expected, or
not a comma between literals, is a parse error. -/
def parseTerminated : List ArgToken → Except SynError (List String)
  | [] => .ok []
  | [.strLit s] => .ok [s]
  | .strLit s :: .comma :: rest =>
      match parseTerminated rest with
      | .ok tail => .ok (s :: tail)
      | .error e => .error e
  | .strLit _ :: _ :: _ => .error ⟨"expected `,`"⟩
  | _ :: _ => .error ⟨"expected string literal"⟩

/-- Embedding of `impl syn::parse::Parse for LogLevel` in src/lib.rs:
parse the terminated punctuated list of string literals; more than one
literal is the "Unexpected multiple macro arguments" error; no literal yields
the default; one literal goes through the strum `FromStr`, whose error
is wrapped with its debug formatting (`format!("\x7be:?\x7d")`, which
for `strum::ParseError::VariantNotFound` is `"VariantNotFound"`). -/
def LogLevel.parse (input : List ArgToken) : Except SynError LogLevel :=
  match parseTerminated input with
  | .error e => .error e
  | .ok punctuated =>
    if punctuated.length > 1 then
      .error ⟨"Unexpected multiple macro arguments"⟩
    else
      match punctuated with
      | [] => .ok LogLevel.default
      | first :: _ =>
        match LogLevel.fromStr first with
        | some lvl => .ok lvl
        | none => .error ⟨"VariantNotFound"⟩

/-- The original function body (`input.block`), carried verbatim as its
statement token strings; the transformer never inspects it. -/
structure Block where
  stmts : List String
deriving DecidableEq, Repr

/-- Embedding of `syn::Signature`: the two fields the code reads
(`ident`, `asyncness`) plus the externally visible parts it re-emits
verbatim (parameters and return type as token strings). -/
structure Signature where
  ident : String
  asyncness : Option Unit
  inputs : List String
  output : String
deriving DecidableEq, Repr

/-- Embedding of `syn::ItemFn`: attributes (other than this one),
visibility, signature, body. -/
structure ItemFn where
  attrs : List String
  vis : String
  sig : Signature
  block : Block
deriving DecidableEq, Repr

/-- The clock source named in the emitted timer start. -/
inductive Clock where
  | std
  | tokio
deriving DecidableEq, Repr

/-- Expressions occurring in the emitted body. -/
inductive Expr where
  | instantNow (c : Clock)
  | awaitAsyncBlock (b : Block)
  | closureCall (b : Block)
  | elapsed (timer : String)
  | stringifyIdent (s : String)
  | var (s : String)
deriving DecidableEq, Repr

/-- Statements of the emitted body: `let` bindings, a tracing
statement (entry point, format template, arguments), and the trailing
result expression. -/
inductive Stmt where
  | letBind (name : String) (e : Expr)
  | log (entry : String) (template : String) (args : List Expr)
  | exprRet (e : Expr)
deriving DecidableEq, Repr

/-- The emitted function: attributes, visibility and signature carried
over, plus the constructed body. -/
structure OutputFn where
  attrs : List String
  vis : String
  sig : Signature
  body : List Stmt
deriving DecidableEq, Repr

/-- Embedding of the body of `pub fn time_it` after both parses have
succeeded: build `timed_fn_block` by branching on `asyncness`, build
`log_line` by matching the level (five arms, each naming its tracing
entry point with the same template and arguments), and assemble
the output as attributes, visibility, signature, then
`timed_fn_block`, `log_line`, `result`. -/
def time_it (input : ItemFn) (logLevel : LogLevel) : OutputFn :=
  let fn_name := input.sig.ident
  let fn_block := input.block
  let fn_vis := input.vis
  let fn_sig := input.sig
  let fn_attrs := input.attrs
  let asyncness := input.sig.asyncness
  let timed_fn_block : List Stmt :=
    if asyncness.isSome then
      [ .letBind "__start" (.instantNow .tokio),
        .letBind "result" (.awaitAsyncBlock fn_block),
        .letBind "__duration" (.elapsed "__start") ]
    else
      [ .letBind "__start" (.instantNow .std),
        .letBind "result" (.closureCall fn_block),
        .letBind "__duration" (.elapsed "__start") ]
  let log_line : Stmt :=
    match logLevel with
    | .Trace =>
        .log "tracing::trace" "[\x7b\x7d]: Execution time: \x7b:?\x7d"
          [.stringifyIdent fn_name, .var "__duration"]
    | .Debug =>
        .log "tracing::debug" "[\x7b\x7d]: Execution time: \x7b:?\x7d"
          [.stringifyIdent fn_name, .var "__duration"]
    | .Info =>
        .log "tracing::info" "[\x7b\x7d]: Execution time: \x7b:?\x7d"
          [.stringifyIdent fn_name, .var "__duration"]
    | .Warn =>
        .log "tracing::warn" "[\x7b\x7d]: Execution time: \x7b:?\x7d"
          [.stringifyIdent fn_name, .var "__duration"]
    | .Error =>
        .log "tracing::error" "[\x7b\x7d]: Execution time: \x7b:?\x7d"
          [.stringifyIdent fn_name, .var "__duration"]
  { attrs := fn_attrs
    vis := fn_vis
    sig := fn_sig
    body := timed_fn_block ++ [log_line, .exprRet (.var "result")] }

/-- Embedding of the whole attribute expansion, with the two
`parse_macro_input!` steps made explicit in source order: first the
annotated item (a failure there aborts the expansion with the item
parser's own diagnostic), then the argument position, then the
transformation. -/
def time_it_expand (item : Except SynError ItemFn) (attr : List ArgToken) :
    Except SynError OutputFn :=
  match item with
  | .error e => .error e
  | .ok input =>
    match LogLevel.parse attr with
    | .error e => .error e
    | .ok lvl => .ok (time_it input lvl)

/-- The tracing entry point each level selects (used only in the
statements of theorems, not in `time_it` itself). -/
def tracingEntry : LogLevel → String
  | .Trace => "tracing::trace"
  | .Debug => "tracing::debug"
  | .Info => "tracing::info"
  | .Warn => "tracing::warn"
  | .Error => "tracing::error"

/-- A statement is a timer start: it binds `__start` to a clock reading. -/
def isTimerStart : Stmt → Bool
  | .letBind "__start" (.instantNow _) => true
  | _ => false

/-- A statement captures the given original body in the binding
`result`, either by awaiting it in an async block or by calling it
wrapped in a closure. -/
def capturesBody (b : Block) : Stmt → Bool
  | .letBind "result" (.awaitAsyncBlock b') => b' == b
  | .letBind "result" (.closureCall b') => b' == b
  | _ => false

/-- A statement computes the elapsed duration from the `__start` timer. -/
def computesElapsed : Stmt → Bool
  | .letBind "__duration" (.elapsed "__start") => true
  | _ => false

/-- A statement is a log statement (at any level). -/
def isLogStmt : Stmt → Bool
  | .log _ _ _ => true
  | _ => false

/-- A statement is the log statement at the entry point of the given level. -/
def isLogAt (lvl : LogLevel) : Stmt → Bool
  | .log entry _ _ => entry == tracingEntry lvl
  | _ => false

/-- A statement is the trailing `result` expression. -/
def returnsResult : Stmt → Bool
  | .exprRet (.var "result") => true
  | _ => false

/-- Whether one character list occurs at the head of another. -/
def leadsWith : List Char → List Char → Bool
  | [], _ => true
  | _ :: _, [] => false
  | a :: as, b :: bs => a == b && leadsWith as bs

/-- Whether `needle` occurs as a contiguous substring of `hay`. -/
def strContains (hay needle : String) : Bool :=
  (List.range (hay.data.length + 1)).any fun i => leadsWith needle.data (hay.data.drop i)

/-- Shared lemma: a string that matches a variant serialization
case-insensitively parses through the strum `FromStr` to that variant.
The five serializations are pairwise distinct under ASCII lowercasing,
so the declaration-order scan cannot hit an earlier variant. -/
theorem LogLevel.fromStr_of_ci (s : String) (lvl : LogLevel)
    (h : eqIgnoreAsciiCase s lvl.variantName = true) :
    LogLevel.fromStr s = some lvl := by
  have hd : s.data.map asciiToLower = lvl.variantName.data.map asciiToLower := by
    unfold eqIgnoreAsciiCase at h
    exact eq_of_beq h
  have hcond : ∀ t : String, eqIgnoreAsciiCase s t =
      (lvl.variantName.data.map asciiToLower == t.data.map asciiToLower) := by
    intro t
    unfold eqIgnoreAsciiCase
    rw [hd]
  cases lvl <;> simp only [LogLevel.fromStr, hcond, LogLevel.variantName] <;> decide

/-- C4: parsing an empty argument position succeeds with the default
severity, the default is `Debug`, and `LogLevel` is a five-value
enumeration (the five listed values are distinct and exhaustive). -/
theorem parse_empty_yields_default_debug :
    LogLevel.parse [] = .ok LogLevel.default ∧
    LogLevel.default = LogLevel.Debug ∧
    (∀ l : LogLevel, l ∈ [LogLevel.Trace, .Debug, .Info, .Warn, .Error]) ∧
    [LogLevel.Trace, .Debug, .Info, .Warn, .Error].Nodup := by
  refine ⟨rfl, rfl, ?_, by decide⟩
  intro l
  cases l <;> simp

/-- C5: an argument position holding exactly one string literal that
matches a severity name in any ASCII letter casing parses to the
correspondingly named severity. -/
theorem parse_single_ci (s : String) (lvl : LogLevel)
    (h : eqIgnoreAsciiCase s lvl.variantName = true) :
    LogLevel.parse [ArgToken.strLit s] = .ok lvl := by
  have hf := LogLevel.fromStr_of_ci s lvl h
  simp [LogLevel.parse, parseTerminated, hf]

/-- Witness for C5 at the mixed-casing input from the claim. -/
theorem parse_single_ci_witness :
    eqIgnoreAsciiCase "TrAcE" (LogLevel.variantName .Trace) = true ∧
    LogLevel.parse [ArgToken.strLit "TrAcE"] = .ok .Trace :=
  ⟨by decide, parse_single_ci "TrAcE" .Trace (by decide)⟩

/-- C6 counterexample: on the unrecognized literal `"verbose"` the
parser does fail, but the diagnostic message is the constant
`"VariantNotFound"` (the debug formatting of strum's error), which does
not contain the supplied name, so the message does not identify the
unknown name. -/
theorem parse_unknown_message_lacks_name :
    LogLevel.parse [ArgToken.strLit "verbose"] = .error ⟨"VariantNotFound"⟩ ∧
    strContains "VariantNotFound" "verbose" = false := by
  exact ⟨rfl, by decide⟩

/-- C6 amended: an argument position holding exactly one string literal
recognized by none of the five severity names fails with a ParseError
whose message is the debug form of the underlying enum-parse error,
the constant string `"VariantNotFound"`. -/
theorem parse_unknown_errors (s : String)
    (h : LogLevel.fromStr s = none) :
    LogLevel.parse [ArgToken.strLit s] = .error ⟨"VariantNotFound"⟩ := by
  simp [LogLevel.parse, parseTerminated, h]

/-- Witness for the amended C6 at the input `"verbose"`. -/
theorem parse_unknown_errors_witness :
    LogLevel.fromStr "verbose" = none ∧
    LogLevel.parse [ArgToken.strLit "verbose"] = .error ⟨"VariantNotFound"⟩ :=
  ⟨by decide, parse_unknown_errors "verbose" (by decide)⟩

/-- C7: whenever the argument position parses (as a terminated
punctuated list) to more than one string literal, the parser fails with
the "Unexpected multiple macro arguments" error, whatever the literals are. -/
theorem parse_multiple_errors (toks : List ArgToken) (lits : List String)
    (hp : parseTerminated toks = .ok lits) (hl : 1 < lits.length) :
    LogLevel.parse toks = .error ⟨"Unexpected multiple macro arguments"⟩ := by
  simp [LogLevel.parse, hp, hl]

/-- Witness for C7 at the two recognized literals `"debug", "info"`. -/
theorem parse_multiple_errors_witness :
    parseTerminated [ArgToken.strLit "debug", .comma, .strLit "info"] =
      .ok ["debug", "info"] ∧
    1 < (["debug", "info"] : List String).length ∧
    LogLevel.parse [ArgToken.strLit "debug", .comma, .strLit "info"] =
      .error ⟨"Unexpected multiple macro arguments"⟩ :=
  ⟨rfl, by decide, parse_multiple_errors _ _ rfl (by decide)⟩

/-- C10: one recognized severity literal followed by a trailing comma is
accepted and yields the corresponding severity, because the punctuated
list is parsed with terminating punctuation allowed and only the count
of literals is checked. -/
theorem parse_trailing_comma_ok (s : String) (lvl : LogLevel)
    (h : LogLevel.fromStr s = some lvl) :
    LogLevel.parse [ArgToken.strLit s, ArgToken.comma] = .ok lvl := by
  simp [LogLevel.parse, parseTerminated, h]

/-- Witness for C10 at the input `"info",`. -/
theorem parse_trailing_comma_ok_witness :
    LogLevel.fromStr "info" = some .Info ∧
    LogLevel.parse [ArgToken.strLit "info", ArgToken.comma] = .ok .Info :=
  ⟨by decide, parse_trailing_comma_ok "info" .Info (by decide)⟩

/-- Shared lemma: the emitted body is exactly five statements — the
timer start on the branch-selected clock, the capture of the wrapped
original body, the elapsed computation, the log line at the selected
level, and the trailing `result` expression. -/
theorem time_it_body_eq (input : ItemFn) (lvl : LogLevel) :
    (time_it input lvl).body =
      [ .letBind "__start"
          (.instantNow (if input.sig.asyncness.isSome then .tokio else .std)),
        .letBind "result"
          (if input.sig.asyncness.isSome then .awaitAsyncBlock input.block
           else .closureCall input.block),
        .letBind "__duration" (.elapsed "__start"),
        .log (tracingEntry lvl) "[\x7b\x7d]: Execution time: \x7b:?\x7d"
          [.stringifyIdent input.sig.ident, .var "__duration"],
        .exprRet (.var "result") ] := by
  cases lvl <;> by_cases h : input.sig.asyncness.isSome <;>
    simp [time_it, tracingEntry, h]

/-- C1: for every accepted function the emitted body is exactly, in
order: a timer start, the capture of the original body's value in a
binding, the elapsed-duration computation, exactly one log statement at
the selected severity, and the return of the captured value. -/
theorem time_it_body_order (input : ItemFn) (lvl : LogLevel) :
    ∃ s1 s2 s3 s4 s5,
      (time_it input lvl).body = [s1, s2, s3, s4, s5] ∧
      isTimerStart s1 = true ∧
      capturesBody input.block s2 = true ∧
      computesElapsed s3 = true ∧
      isLogAt lvl s4 = true ∧
      returnsResult s5 = true ∧
      (time_it input lvl).body.countP (fun s => isLogStmt s) = 1 := by
  refine ⟨_, _, _, _, _, time_it_body_eq input lvl, ?_, ?_, ?_, ?_, ?_, ?_⟩
  · rfl
  · by_cases h : input.sig.asyncness.isSome <;> simp [h, capturesBody]
  · rfl
  · simp [isLogAt]
  · rfl
  · rw [time_it_body_eq]
    simp [List.countP_cons, isLogStmt]

/-- C2: the transformation branches solely on the suspend-qualifier:
async functions get the tokio clock and an immediately awaited async
block around the original body, synchronous functions get the std clock
and an immediately invoked closure, and in both branches the timer
start immediately precedes the capture and the elapsed computation
immediately follows it. -/
theorem time_it_async_branch (input : ItemFn) (lvl : LogLevel) :
    (time_it input lvl).body.take 3 =
      (if input.sig.asyncness.isSome then
        [ Stmt.letBind "__start" (.instantNow .tokio),
          Stmt.letBind "result" (.awaitAsyncBlock input.block),
          Stmt.letBind "__duration" (.elapsed "__start") ]
      else
        [ Stmt.letBind "__start" (.instantNow .std),
          Stmt.letBind "result" (.closureCall input.block),
          Stmt.letBind "__duration" (.elapsed "__start") ]) := by
  by_cases h : input.sig.asyncness.isSome <;> simp [time_it_body_eq, h]

/-- C3: the emitted declaration carries the input's other attributes,
visibility and full signature (name, parameters, return type, suspend
qualifier) unchanged; only the body is replaced. -/
theorem time_it_preserves_interface (input : ItemFn) (lvl : LogLevel) :
    (time_it input lvl).attrs = input.attrs ∧
    (time_it input lvl).vis = input.vis ∧
    (time_it input lvl).sig = input.sig ∧
    (time_it input lvl).sig.ident = input.sig.ident ∧
    (time_it input lvl).sig.inputs = input.sig.inputs ∧
    (time_it input lvl).sig.output = input.sig.output ∧
    (time_it input lvl).sig.asyncness = input.sig.asyncness :=
  ⟨rfl, rfl, rfl, rfl, rfl, rfl, rfl⟩

/-- C8: the log statement (the fourth emitted statement) uses the same
template in all five severity cases, carries the stringified function
name and the elapsed duration as its arguments, and differs across
severities only in the selected tracing entry point. -/
theorem time_it_log_template (input : ItemFn) (lvl : LogLevel) :
    (time_it input lvl).body[3]? =
      some (.log (tracingEntry lvl) "[\x7b\x7d]: Execution time: \x7b:?\x7d"
        [.stringifyIdent input.sig.ident, .var "__duration"]) := by
  simp [time_it_body_eq]

/-- C9: when the annotated item does not parse as a function item, the
expansion aborts with the item parser's diagnostic unmodified and
produces no transformed output. -/
theorem expand_propagates_item_error (e : SynError) (attr : List ArgToken) :
    time_it_expand (.error e) attr = .error e := rfl
